import Mathlib

/-!
Shallow embedding of `src/project_analyzer.py` (class `ProjectAnalyzer`) of the
offline-code-assistant repository.

The analyzer's language extractors are built on Python `re` patterns.  All the
patterns in the source use only: literal characters, single-character classes
(`\s`, `\S`, `\w`, `.`, `[...]`), greedy `*` / `+`, lazy `+?`, `(?:...)?`,
alternation, capture groups, and the MULTILINE anchors `^` / `$`.  We embed a
small backtracking matcher over exactly this fragment, with Python's
leftmost-match and priority-order (left-first alternation, greedy-longest,
lazy-shortest) semantics.  Character classes are embedded over their ASCII
fragment, which covers every string the analyzer's heuristics distinguish.
-/

namespace ProjectAnalyzer

/-! ### Character predicates (ASCII fragment of Python `re` classes) -/

/-- Python `\s`: whitespace (space, tab, newline, carriage return, vertical tab, form feed). -/
def isPySpace (c : Char) : Bool :=
  c == ' ' || c == '\t' || c == '\n' || c == '\r' || c == Char.ofNat 11 || c == Char.ofNat 12

/-- Python `\w`: word character (letter, digit, underscore). -/
def isWordChar (c : Char) : Bool :=
  c.isAlphanum || c == '_'

/-- Python `.` without DOTALL: any character except newline. -/
def isDotAny (c : Char) : Bool := c != '\n'

/-- The character class `['"]` used by the JavaScript import pattern. -/
def isQuote (c : Char) : Bool := c == '\'' || c == '"'

/-! ### Regular-expression fragment used by `project_analyzer.py` -/

/-- Regexes of the fragment used in the source: repetition operators only ever
apply to single-character classes there, so `starG`/`plusG`/`plusL` take a
character predicate directly. -/
inductive RE where
  | eps
  | ch (p : Char → Bool)
  | cat (a b : RE)
  | alt (a b : RE)
  | starG (p : Char → Bool)
  | plusG (p : Char → Bool)
  | plusL (p : Char → Bool)
  | opt (a : RE)
  | group (idx : Nat) (a : RE)
  | bol
  | eol

/-- Captured groups of one match: group index paired with captured text
(latest capture first; absent index = group did not participate). -/
abbrev Caps := List (Nat × String)

def setCap (g : Caps) (n : Nat) (s : String) : Caps := (n, s) :: g

def capGet (g : Caps) (n : Nat) : Option String :=
  (g.find? (fun e => e.1 == n)).map (fun e => e.2)

/-- One partial-match state: the last character consumed so far (for the `^`
anchor), the remaining suffix of the subject, and captures. -/
structure MRes where
  prev : Option Char
  rest : List Char
  caps : Caps
deriving Repr

/-- Length of the maximal run of characters satisfying `p` at the head. -/
def runLenFrom (p : Char → Bool) : List Char → Nat
  | [] => 0
  | c :: cs => if p c then runLenFrom p cs + 1 else 0

/-- The `prev` character after consuming `k` characters of `s` (given the
previous `prev` for `k = 0`). -/
def npAfter (p0 : Option Char) (s : List Char) (k : Nat) : Option Char :=
  if k = 0 then p0 else s[k-1]?

/-- All ways a regex can match a prefix of `s`, in Python backtracking
priority order (head = the match the `re` engine commits to). -/
def reMatch (r : RE) (p0 : Option Char) (s : List Char) (g : Caps) : List MRes :=
  match r with
  | .eps => [⟨p0, s, g⟩]
  | .ch p =>
    match s with
    | [] => []
    | c :: cs => if p c then [⟨some c, cs, g⟩] else []
  | .cat a b => (reMatch a p0 s g).flatMap (fun m => reMatch b m.prev m.rest m.caps)
  | .alt a b => reMatch a p0 s g ++ reMatch b p0 s g
  | .starG p =>
    (List.range (runLenFrom p s + 1)).reverse.map (fun k => ⟨npAfter p0 s k, s.drop k, g⟩)
  | .plusG p =>
    (List.range (runLenFrom p s)).reverse.map (fun j => ⟨npAfter p0 s (j+1), s.drop (j+1), g⟩)
  | .plusL p =>
    (List.range (runLenFrom p s)).map (fun j => ⟨npAfter p0 s (j+1), s.drop (j+1), g⟩)
  | .opt a => reMatch a p0 s g ++ [⟨p0, s, g⟩]
  | .group n a =>
    (reMatch a p0 s g).map
      (fun m => ⟨m.prev, m.rest, setCap m.caps n (String.mk (s.take (s.length - m.rest.length)))⟩)
  | .bol => if p0.isNone || p0 == some '\n' then [⟨p0, s, g⟩] else []
  | .eol =>
    match s with
    | [] => [⟨p0, s, g⟩]
    | c :: _ => if c == '\n' then [⟨p0, s, g⟩] else []

/-- Scan for successive non-overlapping leftmost matches (Python
`re.finditer`): try a match at the current position, else advance one
character; after a match continue at its end (advancing one character on an
empty match). -/
def scan (r : RE) : Nat → Option Char → List Char → List Caps
  | 0, _, _ => []
  | fuel+1, p0, s =>
    match (reMatch r p0 s []).head? with
    | some m =>
      if m.rest.length < s.length then
        m.caps :: scan r fuel m.prev m.rest
      else
        m.caps :: (match s with
          | [] => []
          | c :: cs => scan r fuel (some c) cs)
    | none =>
      match s with
      | [] => []
      | c :: cs => scan r fuel (some c) cs

/-- `re.finditer(pattern, content)`, returning each match's captures. -/
def finditer (r : RE) (content : String) : List Caps :=
  scan r (content.data.length + 1) none content.data

/-- A literal string as a regex. -/
def litRE (s : String) : RE :=
  s.data.foldr (fun c r => RE.cat (RE.ch (fun x => x == c)) r) RE.eps

/-! ### The source's patterns

Python sources (`_analyze_python`), line 158-160:
`^(?:from\s+(\S+)\s+)?import\s+(.+)$`, `^def\s+([^\s(]+)`,
`^class\s+([^\s:(]+)`, all MULTILINE. -/

def import_pattern_py : RE :=
  .cat .bol
    (.cat (.opt (.cat (litRE "from")
            (.cat (.plusG isPySpace)
              (.cat (.group 1 (.plusG (fun c => !isPySpace c)))
                (.plusG isPySpace)))))
      (.cat (litRE "import")
        (.cat (.plusG isPySpace)
          (.cat (.group 2 (.plusG isDotAny)) .eol))))

def function_pattern_py : RE :=
  .cat .bol
    (.cat (litRE "def")
      (.cat (.plusG isPySpace)
        (.group 1 (.plusG (fun c => !isPySpace c && c != '(')))))

def class_pattern_py : RE :=
  .cat .bol
    (.cat (litRE "class")
      (.cat (.plusG isPySpace)
        (.group 1 (.plusG (fun c => !isPySpace c && c != ':' && c != '(')))))

/-! C/C++ patterns (`_analyze_c_cpp`), line 187-189:
`#include\s+[<"]([^>"]+)[>"]`, `(\w+)\s+(\w+)\s*\([^)]*\)\s*{`,
`(struct|class|enum)\s+(\w+)`. -/

def include_pattern_c : RE :=
  .cat (litRE "#include")
    (.cat (.plusG isPySpace)
      (.cat (.ch (fun c => c == '<' || c == '"'))
        (.cat (.group 1 (.plusG (fun c => c != '>' && c != '"')))
          (.ch (fun c => c == '>' || c == '"')))))

def function_pattern_c : RE :=
  .cat (.group 1 (.plusG isWordChar))
    (.cat (.plusG isPySpace)
      (.cat (.group 2 (.plusG isWordChar))
        (.cat (.starG isPySpace)
          (.cat (.ch (fun c => c == '('))
            (.cat (.starG (fun c => c != ')'))
              (.cat (.ch (fun c => c == ')'))
                (.cat (.starG isPySpace)
                  (.ch (fun c => c == '{')))))))))

def struct_pattern_c : RE :=
  .cat (.group 1 (.alt (litRE "struct") (.alt (litRE "class") (litRE "enum"))))
    (.cat (.plusG isPySpace) (.group 2 (.plusG isWordChar)))

/-! JavaScript patterns (`_analyze_javascript`), line 212-214:
`(import|require)\s+.+?['"]([^'"]+)['"]`,
`function\s+(\w+)|(\w+)\s*=\s*function`, `class\s+(\w+)`. -/

def import_pattern_js : RE :=
  .cat (.group 1 (.alt (litRE "import") (litRE "require")))
    (.cat (.plusG isPySpace)
      (.cat (.plusL isDotAny)
        (.cat (.ch isQuote)
          (.cat (.group 2 (.plusG (fun c => !isQuote c)))
            (.ch isQuote)))))

def function_pattern_js : RE :=
  .alt
    (.cat (litRE "function") (.cat (.plusG isPySpace) (.group 1 (.plusG isWordChar))))
    (.cat (.group 2 (.plusG isWordChar))
      (.cat (.starG isPySpace)
        (.cat (.ch (fun c => c == '='))
          (.cat (.starG isPySpace) (litRE "function")))))

def class_pattern_js : RE :=
  .cat (litRE "class") (.cat (.plusG isPySpace) (.group 1 (.plusG isWordChar)))

/-! ### Language-specific extractors -/

/-- Python `str.strip()` on the whitespace the analyzer encounters. -/
def pyStrip (s : String) : String :=
  String.mk (((s.data.dropWhile isPySpace).reverse.dropWhile isPySpace).reverse)

/-- Python `str.split(',')`: split at every comma, keeping empty pieces. -/
def splitCommaAux : List Char → List Char → List String
  | [], cur => [String.mk cur.reverse]
  | c :: rest, cur =>
    if c == ',' then String.mk cur.reverse :: splitCommaAux rest []
    else splitCommaAux rest (c :: cur)

def splitCommaStr (s : String) : List String := splitCommaAux s.data []

/-- Result record of `_analyze_python`. -/
structure PyInfo where
  imports : List String
  functions : List String
  classes : List String
deriving Repr, DecidableEq

/-- `ProjectAnalyzer._analyze_python` (line 149-176): regex-scan imports
(expanding `from M import a, b` to `M.a`, `M.b` with `strip()` on the
comma-split names), top-level `def` names, and top-level `class` names. -/
def _analyze_python (content : String) : PyInfo :=
  let imports := (finditer import_pattern_py content).flatMap (fun g =>
    match capGet g 1 with
    | some module =>
      (splitCommaStr ((capGet g 2).getD "")).map (fun item => module ++ "." ++ pyStrip item)
    | none => (splitCommaStr ((capGet g 2).getD "")).map pyStrip)
  let functions := (finditer function_pattern_py content).filterMap (fun g => capGet g 1)
  let classes := (finditer class_pattern_py content).filterMap (fun g => capGet g 1)
  ⟨imports, functions, classes⟩

/-- Result record of `_analyze_c_cpp`. -/
structure CInfo where
  includes : List String
  functions : List String
  structs : List String
deriving Repr, DecidableEq

/-- `ProjectAnalyzer._analyze_c_cpp` (line 178-201): `#include` targets,
function names (second word of `<word> <word> (...) {` unless the first word
is a control-flow keyword), and `<kind> <name>` struct records. -/
def _analyze_c_cpp (content : String) : CInfo :=
  let includes := (finditer include_pattern_c content).filterMap (fun g => capGet g 1)
  let functions := (finditer function_pattern_c content).flatMap (fun g =>
    if ((capGet g 1).getD "") ∈ (["if", "for", "while", "switch"] : List String) then []
    else [(capGet g 2).getD ""])
  let structs := (finditer struct_pattern_c content).map
    (fun g => ((capGet g 1).getD "") ++ " " ++ ((capGet g 2).getD ""))
  ⟨includes, functions, structs⟩

/-- Result record of `_analyze_javascript`. -/
structure JsInfo where
  imports : List String
  functions : List String
  classes : List String
deriving Repr, DecidableEq

/-- `ProjectAnalyzer._analyze_javascript` (line 203-226): quoted module paths
after `import`/`require`, function names (`function <name>` or
`<name> = function`, taking `group(1) or group(2)`), and class names. -/
def _analyze_javascript (content : String) : JsInfo :=
  let imports := (finditer import_pattern_js content).filterMap (fun g => capGet g 2)
  let functions := (finditer function_pattern_js content).flatMap (fun g =>
    let fn := match capGet g 1 with
      | some s => if s ≠ "" then s else (capGet g 2).getD ""
      | none => (capGet g 2).getD ""
    if fn ≠ "" then [fn] else [])
  let classes := (finditer class_pattern_js content).filterMap (fun g => capGet g 1)
  ⟨imports, functions, classes⟩

/-! ### `os.path.splitext` and `str.lower` -/

def lastIndexOfAux (c : Char) : List Char → Nat → Option Nat → Option Nat
  | [], _, acc => acc
  | x :: rest, i, acc => lastIndexOfAux c rest (i+1) (if x == c then some i else acc)

def lastIndexOf (cs : List Char) (c : Char) : Option Nat := lastIndexOfAux c cs 0 none

/-- POSIX `os.path.splitext`: split at the last `.` of the basename, unless
every character of the basename before that dot is itself a dot (so dotfiles
like `.bashrc` have no extension). -/
def splitext (p : String) : String × String :=
  let cs := p.data
  match lastIndexOf cs '.' with
  | none => (p, "")
  | some d =>
    let start := match lastIndexOf cs '/' with
      | none => 0
      | some si => si + 1
    if start ≤ d && ((cs.drop start).take (d - start)).any (fun c => c != '.') then
      (String.mk (cs.take d), String.mk (cs.drop d))
    else (p, "")

/-- Python `str.lower()` (ASCII fragment). -/
def pyLower (s : String) : String := String.mk (s.data.map Char.toLower)

/-! ### Python `dict` with insertion order (for the `file_types` histogram) -/

def dictGet (d : List (String × Nat)) (k : String) : Option Nat :=
  (d.find? (fun e => e.1 == k)).map (fun e => e.2)

def dictSet : List (String × Nat) → String → Nat → List (String × Nat)
  | [], k, v => [(k, v)]
  | e :: rest, k, v => if e.1 == k then (k, v) :: rest else e :: dictSet rest k v

/-- `d[k] = d.get(k, 0) + 1`. -/
def dictIncr (d : List (String × Nat)) (k : String) : List (String × Nat) :=
  dictSet d k ((dictGet d k).getD 0 + 1)

def sumCounts (d : List (String × Nat)) : Nat := (d.map (fun e => e.2)).sum

/-! ### `fnmatch.fnmatch` (POSIX case-sensitive glob matching) -/

inductive ClassItem where
  | single (c : Char)
  | range (lo hi : Char)

inductive GlobItem where
  | star
  | qmark
  | litc (c : Char)
  | cls (neg : Bool) (items : List ClassItem)

/-- Parse the body of a `[...]` class into single characters and `a-b`
ranges (a trailing `-` is a literal member). -/
def classItems : List Char → List ClassItem
  | [] => []
  | a :: b :: c :: rest =>
    if b == '-' then .range a c :: classItems rest
    else .single a :: classItems (b :: c :: rest)
  | a :: rest => .single a :: classItems rest

def findClose : List Char → List Char → Option (List Char × List Char)
  | [], _ => none
  | c :: rest, acc =>
    if c == ']' then some (acc.reverse, rest) else findClose rest (c :: acc)

/-- Scan a `[...]` class after its opening bracket: optional leading `!`
negates; a `]` right after that is a literal member; an unclosed class makes
the `[` a literal character (signalled by `none`). -/
def scanClass (cs : List Char) : Option (Bool × List ClassItem × List Char) :=
  let negCs := match cs with
    | '!' :: rest => (true, rest)
    | _ => (false, cs)
  let preCs : List Char × List Char := match negCs.2 with
    | ']' :: rest => ([']'], rest)
    | _ => ([], negCs.2)
  match findClose preCs.2 [] with
  | none => none
  | some (content, rest) => some (negCs.1, classItems (preCs.1 ++ content), rest)

def parseGlobAux : Nat → List Char → List GlobItem
  | 0, _ => []
  | _, [] => []
  | fuel+1, c :: cs =>
    if c == '*' then .star :: parseGlobAux fuel cs
    else if c == '?' then .qmark :: parseGlobAux fuel cs
    else if c == '[' then
      match scanClass cs with
      | some (neg, items, rest) => .cls neg items :: parseGlobAux fuel rest
      | none => .litc '[' :: parseGlobAux fuel cs
    else .litc c :: parseGlobAux fuel cs

def parseGlob (s : String) : List GlobItem := parseGlobAux s.data.length s.data

def classMatches (items : List ClassItem) (c : Char) : Bool :=
  items.any (fun it => match it with
    | .single x => x == c
    | .range lo hi => decide (lo ≤ c) && decide (c ≤ hi))

def suffixesOf : List Char → List (List Char)
  | [] => [[]]
  | c :: rest => (c :: rest) :: suffixesOf rest

def globMatchItems : List GlobItem → List Char → Bool
  | [], s => s.isEmpty
  | .star :: ps, s => (suffixesOf s).any (fun t => globMatchItems ps t)
  | .qmark :: ps, s =>
    match s with
    | [] => false
    | _ :: cs => globMatchItems ps cs
  | .litc c :: ps, s =>
    match s with
    | [] => false
    | x :: cs => x == c && globMatchItems ps cs
  | .cls neg items :: ps, s =>
    match s with
    | [] => false
    | x :: cs => (classMatches items x != neg) && globMatchItems ps cs

/-- `fnmatch.fnmatch(name, pattern)` on POSIX (case-sensitive). -/
def fnmatch (name pattern : String) : Bool :=
  globMatchItems (parseGlob pattern) name.data

/-- `ProjectAnalyzer._is_ignored_dir` (line 145-147): does the bare directory
name match any configured ignore pattern. -/
def _is_ignored_dir (ignored_dirs : List String) (dir_name : String) : Bool :=
  ignored_dirs.any (fun pattern => fnmatch dir_name pattern)

/-! ### Directory trees and `analyze_project` (line 21-59)

A directory tree is modelled as the forest of entries under the project root;
`os.walk` with top-down pruning becomes a recursive visit that, per directory,
first records the directory's relative path (except the root `.`), then all
file names of that directory, then recurses into the non-ignored
subdirectories in order. -/

inductive FSEntry where
  | file (name : String)
  | dir (name : String) (children : List FSEntry)
deriving Repr

def fileNames : List FSEntry → List String
  | [] => []
  | .file n :: rest => n :: fileNames rest
  | .dir _ _ :: rest => fileNames rest

/-- The `project_info` dict built by `analyze_project`. -/
structure ProjectInfo where
  path : String
  files : List String
  file_count : Nat
  directories : List String
  directory_count : Nat
  file_types : List (String × Nat)
deriving Repr, DecidableEq

/-- `os.path.join(rel_root, name)` combined with the source's special case
replacing `./name` by `name` (and `os.path.relpath` for subdirectories). -/
def joinRel (relRoot name : String) : String :=
  if relRoot = "." then name else relRoot ++ "/" ++ name

/-- Record one file (line 46-57): append its relative path, bump the count,
and bump the histogram for a non-empty lowercased extension. -/
def addFile (relRoot name : String) (info : ProjectInfo) : ProjectInfo :=
  let info1 := { info with files := info.files ++ [joinRel relRoot name],
                           file_count := info.file_count + 1 }
  let ext := pyLower (splitext name).2
  if ext ≠ "" then { info1 with file_types := dictIncr info1.file_types ext } else info1

def addFiles (relRoot : String) (names : List String) (info : ProjectInfo) : ProjectInfo :=
  names.foldl (fun i n => addFile relRoot n i) info

/-- The recursive part of the `os.walk` loop: for each non-ignored
subdirectory among `es`, record it, record its files, and descend. -/
def visitChildren (pats : List String) (relRoot : String) (es : List FSEntry)
    (info : ProjectInfo) : ProjectInfo :=
  match es with
  | [] => info
  | .file _ :: rest => visitChildren pats relRoot rest info
  | .dir n cs :: rest =>
    if _is_ignored_dir pats n then visitChildren pats relRoot rest info
    else
      visitChildren pats relRoot rest
        (visitChildren pats (joinRel relRoot n) cs
          (addFiles (joinRel relRoot n) (fileNames cs)
            { info with directories := info.directories ++ [joinRel relRoot n],
                        directory_count := info.directory_count + 1 }))
termination_by sizeOf es

/-- `ProjectAnalyzer.analyze_project` on an existing root directory whose
entries are `rootChildren` (the source raises FileNotFoundError before the
walk when the root is missing; here the tree is given). -/
def analyze_project (ignored_dirs : List String) (project_path : String)
    (rootChildren : List FSEntry) : ProjectInfo :=
  let info0 : ProjectInfo := ⟨project_path, [], 0, [], 0, []⟩
  let info1 := addFiles "." (fileNames rootChildren) info0
  visitChildren ignored_dirs "." rootChildren info1

/-! ### The analyzer instance, `read_file` and `analyze_file`

The on-disk state is a map `fs : String → Option String` from path to the
decoded text `open(path, encoding='utf-8', errors='replace').read()` would
produce, `none` when the path does not exist / cannot be opened (in which
case `read_file` hits its `except` branch). -/

structure Analyzer where
  ignored_dirs : List String := []
  code_extensions : List String := []
  file_cache : List (String × String) := []
deriving Repr, DecidableEq

def cacheGet (cache : List (String × String)) (p : String) : Option String :=
  (cache.find? (fun e => e.1 == p)).map (fun e => e.2)

/-- `ProjectAnalyzer.read_file` (line 92-106): return the cached text if
present; otherwise read and cache it; on a failed open/read, print a
diagnostic and return `""` without touching the cache. -/
def read_file (fs : String → Option String) (a : Analyzer) (file_path : String) :
    String × Analyzer :=
  match cacheGet a.file_cache file_path with
  | some content => (content, a)
  | none =>
    match fs file_path with
    | some content => (content, { a with file_cache := a.file_cache ++ [(file_path, content)] })
    | none => ("", a)

inductive AnalyzerError where
  | FileNotFoundError (path : String)
deriving Repr, DecidableEq

/-- The `file_info` dict of `analyze_file`: four base keys always present,
language-specific keys (`none` = key absent) added by `dict.update`. -/
structure FileInfo where
  path : String
  type : String
  lines : Nat
  size : Nat
  imports : Option (List String) := none
  functions : Option (List String) := none
  classes : Option (List String) := none
  includes : Option (List String) := none
  structs : Option (List String) := none
deriving Repr, DecidableEq

/-- `ProjectAnalyzer.analyze_file` (line 61-90): raise FileNotFoundError when
the path does not exist; read the content via `read_file` when not supplied;
fill the base fields; dispatch on the lowercased, dot-stripped extension. -/
def analyze_file (fs : String → Option String) (a : Analyzer) (file_path : String)
    (content? : Option String) : Except AnalyzerError (FileInfo × Analyzer) :=
  if (fs file_path).isNone then .error (.FileNotFoundError file_path)
  else
    let ca := match content? with
      | some c => (c, a)
      | none => read_file fs a file_path
    let content := ca.1
    let ext := String.mk ((pyLower (splitext file_path).2).data.dropWhile (fun c => c == '.'))
    let base : FileInfo := { path := file_path, type := ext,
                             lines := content.data.count '\n' + 1, size := content.length }
    let fi :=
      if ext = "py" ∨ ext = "js" ∨ ext = "c" ∨ ext = "cpp" ∨ ext = "h" then
        if ext = "py" then
          let i := _analyze_python content
          { base with imports := some i.imports, functions := some i.functions,
                      classes := some i.classes }
        else if ext = "c" ∨ ext = "cpp" ∨ ext = "h" then
          let i := _analyze_c_cpp content
          { base with includes := some i.includes, functions := some i.functions,
                      structs := some i.structs }
        else
          let i := _analyze_javascript content
          { base with imports := some i.imports, functions := some i.functions,
                      classes := some i.classes }
      else base
    .ok (fi, ca.2)

/-! ### Auxiliary definitions used only to state properties -/

/-- Remove, at every depth, the directories whose bare name matches an
ignore pattern (the subtrees `analyze_project` prunes). -/
def pruneEntries (pats : List String) : List FSEntry → List FSEntry
  | [] => []
  | .file n :: rest => .file n :: pruneEntries pats rest
  | .dir n cs :: rest =>
    if _is_ignored_dir pats n then pruneEntries pats rest
    else .dir n (pruneEntries pats cs) :: pruneEntries pats rest
termination_by es => sizeOf es

/-- How many of these file names have a non-empty (lowercased) extension. -/
def extCount (names : List String) : Nat :=
  (names.filter (fun n => !(pyLower (splitext n).2 == ""))).length

/-- Number of files with a non-empty extension inside the non-pruned
subdirectories of `es` (not counting the files of the current directory). -/
def extFileCountChildren (pats : List String) : List FSEntry → Nat
  | [] => 0
  | .file _ :: rest => extFileCountChildren pats rest
  | .dir n cs :: rest =>
    if _is_ignored_dir pats n then extFileCountChildren pats rest
    else extCount (fileNames cs) + extFileCountChildren pats cs + extFileCountChildren pats rest
termination_by es => sizeOf es

/-! ## Helper lemmas -/

theorem sumCounts_nil : sumCounts [] = 0 := rfl

theorem sumCounts_cons (e : String × Nat) (d : List (String × Nat)) :
    sumCounts (e :: d) = e.2 + sumCounts d := by
  simp [sumCounts]

theorem dictGet_nil (k : String) : dictGet [] k = none := rfl

theorem dictGet_cons (e : String × Nat) (d : List (String × Nat)) (k : String) :
    dictGet (e :: d) k = if e.1 == k then some e.2 else dictGet d k := by
  by_cases h : e.1 == k <;> simp [dictGet, List.find?, h]

theorem dictIncr_sumCounts (d : List (String × Nat)) (k : String) :
    sumCounts (dictIncr d k) = sumCounts d + 1 := by
  induction d with
  | nil => simp [dictIncr, dictSet, dictGet, sumCounts]
  | cons e rest ih =>
    by_cases h : e.1 == k
    · simp [dictIncr, dictSet, dictGet_cons, h, sumCounts_cons]
      omega
    · simp only [dictIncr, dictGet_cons, h, if_false, dictSet, if_neg,
        Bool.not_eq_true] at ih ⊢
      simp only [h, Bool.false_eq_true, if_false, sumCounts_cons]
      omega

theorem dictGet_dictIncr_ne (d : List (String × Nat)) (k q : String) (h : q ≠ k) :
    dictGet (dictIncr d k) q = dictGet d q := by
  have hkq : (k == q) = false := beq_eq_false_iff_ne.mpr (Ne.symm h)
  induction d with
  | nil => simp [dictIncr, dictGet, dictSet, List.find?, hkq]
  | cons e rest ih =>
    by_cases he : (e.1 == k) = true
    · have he1 : e.1 = k := beq_iff_eq.mp he
      simp [dictIncr, dictGet_cons, he, dictSet, hkq, he1]
    · simp only [dictIncr, dictGet_cons, he, Bool.false_eq_true, if_false, dictSet] at ih ⊢
      by_cases hq : (e.1 == q) = true <;> simp [dictGet_cons, hq, ih]

theorem addFile_files (r n : String) (info : ProjectInfo) :
    (addFile r n info).files = info.files ++ [joinRel r n] := by
  simp only [addFile]
  split <;> rfl

theorem addFile_file_count (r n : String) (info : ProjectInfo) :
    (addFile r n info).file_count = info.file_count + 1 := by
  simp only [addFile]
  split <;> rfl

theorem addFile_directories (r n : String) (info : ProjectInfo) :
    (addFile r n info).directories = info.directories := by
  simp only [addFile]
  split <;> rfl

theorem addFile_directory_count (r n : String) (info : ProjectInfo) :
    (addFile r n info).directory_count = info.directory_count := by
  simp only [addFile]
  split <;> rfl

theorem addFile_sum (r n : String) (info : ProjectInfo) :
    sumCounts (addFile r n info).file_types
      = sumCounts info.file_types + (if pyLower (splitext n).2 ≠ "" then 1 else 0) := by
  simp only [addFile]
  split
  · next h => simp [dictIncr_sumCounts, h]
  · next h => simp [h]

theorem addFile_empty_key (r n : String) (info : ProjectInfo) :
    dictGet (addFile r n info).file_types "" = dictGet info.file_types "" := by
  simp only [addFile]
  split
  · next h => exact dictGet_dictIncr_ne _ _ _ (fun he => h he.symm)
  · rfl

theorem addFiles_files_length (r : String) (names : List String) (info : ProjectInfo) :
    (addFiles r names info).files.length = info.files.length + names.length := by
  induction names generalizing info with
  | nil => simp [addFiles]
  | cons n rest ih =>
    simp only [addFiles, List.foldl_cons] at ih ⊢
    rw [ih, addFile_files]
    simp [List.length_cons]
    omega

theorem addFiles_file_count (r : String) (names : List String) (info : ProjectInfo) :
    (addFiles r names info).file_count = info.file_count + names.length := by
  induction names generalizing info with
  | nil => simp [addFiles]
  | cons n rest ih =>
    simp only [addFiles, List.foldl_cons] at ih ⊢
    rw [ih, addFile_file_count]
    simp [List.length_cons]
    omega

theorem addFiles_directories (r : String) (names : List String) (info : ProjectInfo) :
    (addFiles r names info).directories = info.directories := by
  induction names generalizing info with
  | nil => simp [addFiles]
  | cons n rest ih =>
    simp only [addFiles, List.foldl_cons] at ih ⊢
    rw [ih, addFile_directories]

theorem addFiles_directory_count (r : String) (names : List String) (info : ProjectInfo) :
    (addFiles r names info).directory_count = info.directory_count := by
  induction names generalizing info with
  | nil => simp [addFiles]
  | cons n rest ih =>
    simp only [addFiles, List.foldl_cons] at ih ⊢
    rw [ih, addFile_directory_count]

theorem extCount_cons (n : String) (rest : List String) :
    extCount (n :: rest)
      = (if pyLower (splitext n).2 ≠ "" then 1 else 0) + extCount rest := by
  simp only [extCount, List.filter_cons]
  split
  · next h =>
    have : pyLower (splitext n).2 ≠ "" := by simpa using h
    simp [this]
    omega
  · next h =>
    have : ¬ pyLower (splitext n).2 ≠ "" := by simpa using h
    simp [this]

theorem addFiles_sum (r : String) (names : List String) (info : ProjectInfo) :
    sumCounts (addFiles r names info).file_types
      = sumCounts info.file_types + extCount names := by
  induction names generalizing info with
  | nil => simp [addFiles, extCount]
  | cons n rest ih =>
    simp only [addFiles, List.foldl_cons] at ih ⊢
    rw [ih, addFile_sum, extCount_cons]
    omega

theorem addFiles_empty_key (r : String) (names : List String) (info : ProjectInfo) :
    dictGet (addFiles r names info).file_types "" = dictGet info.file_types "" := by
  induction names generalizing info with
  | nil => simp [addFiles]
  | cons n rest ih =>
    simp only [addFiles, List.foldl_cons] at ih ⊢
    rw [ih, addFile_empty_key]

theorem visitChildren_counts (pats : List String) (relRoot : String) (es : List FSEntry)
    (info : ProjectInfo)
    (h : info.file_count = info.files.length ∧ info.directory_count = info.directories.length) :
    (visitChildren pats relRoot es info).file_count
        = (visitChildren pats relRoot es info).files.length ∧
      (visitChildren pats relRoot es info).directory_count
        = (visitChildren pats relRoot es info).directories.length := by
  induction relRoot, es, info using visitChildren.induct pats with
  | case1 r info => simpa [visitChildren] using h
  | case2 r info n rest ih =>
    rw [visitChildren]
    exact ih h
  | case3 r info n cs rest hig ih =>
    rw [visitChildren]
    simp only [hig, if_true]
    exact ih h
  | case4 r info n cs rest hig ih1 ih2 =>
    rw [visitChildren, if_neg hig]
    apply ih2
    apply ih1
    constructor
    · rw [addFiles_file_count, addFiles_files_length]
      simp [h.1]
    · rw [addFiles_directory_count, addFiles_directories]
      simp [h.2]

theorem visitChildren_sum (pats : List String) (relRoot : String) (es : List FSEntry)
    (info : ProjectInfo) :
    sumCounts (visitChildren pats relRoot es info).file_types
      = sumCounts info.file_types + extFileCountChildren pats es := by
  induction relRoot, es, info using visitChildren.induct pats with
  | case1 r info => simp [visitChildren, extFileCountChildren]
  | case2 r info n rest ih =>
    rw [visitChildren, extFileCountChildren]
    exact ih
  | case3 r info n cs rest hig ih =>
    rw [visitChildren, extFileCountChildren]
    simp only [hig, if_true]
    exact ih
  | case4 r info n cs rest hig ih1 ih2 =>
    rw [visitChildren, if_neg hig, extFileCountChildren, if_neg hig]
    rw [ih2, ih1, addFiles_sum]
    simp only []
    omega

theorem visitChildren_empty_key (pats : List String) (relRoot : String) (es : List FSEntry)
    (info : ProjectInfo) :
    dictGet (visitChildren pats relRoot es info).file_types ""
      = dictGet info.file_types "" := by
  induction relRoot, es, info using visitChildren.induct pats with
  | case1 r info => simp [visitChildren]
  | case2 r info n rest ih =>
    rw [visitChildren]
    exact ih
  | case3 r info n cs rest hig ih =>
    rw [visitChildren]
    simp only [hig, if_true]
    exact ih
  | case4 r info n cs rest hig ih1 ih2 =>
    rw [visitChildren, if_neg hig]
    rw [ih2, ih1, addFiles_empty_key]

theorem fileNames_prune (pats : List String) (es : List FSEntry) :
    fileNames (pruneEntries pats es) = fileNames es := by
  induction es using pruneEntries.induct pats with
  | case1 => rw [pruneEntries]
  | case2 n rest ih => rw [pruneEntries, fileNames, ih, fileNames]
  | case3 n cs rest hig ih => rw [pruneEntries, if_pos hig, ih, fileNames]
  | case4 n cs rest hig ih1 ih2 => rw [pruneEntries, if_neg hig, fileNames, ih2, fileNames]

theorem visitChildren_prune (pats : List String) (es : List FSEntry) :
    ∀ (r : String) (info : ProjectInfo),
      visitChildren pats r (pruneEntries pats es) info = visitChildren pats r es info := by
  induction es using pruneEntries.induct pats with
  | case1 => intro r info; rw [pruneEntries]
  | case2 n rest ih =>
    intro r info
    rw [pruneEntries, visitChildren, ih, visitChildren]
  | case3 n cs rest hig ih =>
    intro r info
    rw [pruneEntries, if_pos hig, ih, visitChildren, if_pos hig]
  | case4 n cs rest hig ih1 ih2 =>
    intro r info
    rw [pruneEntries, if_neg hig, visitChildren, if_neg hig, fileNames_prune, ih1, ih2,
      visitChildren, if_neg hig]

theorem cacheGet_append_self (l : List (String × String)) (p t : String)
    (h : cacheGet l p = none) : cacheGet (l ++ [(p, t)]) p = some t := by
  induction l with
  | nil => simp [cacheGet, List.find?]
  | cons e rest ih =>
    by_cases he : (e.1 == p) = true
    · simp [cacheGet, List.find?, he] at h
    · simp only [cacheGet, List.cons_append, List.find?, he] at h ⊢
      exact ih h

/-! ## The claims -/

/-- C1 is false on the code: `analyze_project` only counts a file's type when
its extension is non-empty (`if ext:` at line 56), so a file with no
extension contributes to no counter at all.  At the concrete tree containing
the single extensionless file `Makefile`, the sum over `file_types` is 0
while `files` records 1 file. -/
theorem analyze_project_extensionless_counterexample :
    ¬ (sumCounts (analyze_project [] "/p" [.file "Makefile"]).file_types
        = (analyze_project [] "/p" [.file "Makefile"]).files.length) := by
  simp only [analyze_project, visitChildren]
  decide

/-- C1 (amended): files with no extension contribute to no counter (in
particular there is never an empty-string key), so the sum of all counts in
`file_types` equals the number of visited files whose name has a non-empty
lowercased extension, not the total number of files recorded in `files`. -/
theorem analyze_project_file_types_sum (pats : List String) (path : String)
    (cs : List FSEntry) :
    sumCounts (analyze_project pats path cs).file_types
        = extCount (fileNames cs) + extFileCountChildren pats cs ∧
      dictGet (analyze_project pats path cs).file_types "" = none := by
  constructor
  · rw [analyze_project, visitChildren_sum, addFiles_sum]
    simp [sumCounts]
  · rw [analyze_project, visitChildren_empty_key, addFiles_empty_key]
    rfl

/-- C3: ignored-directory patterns fully prune subtrees: the walk of a tree
equals the walk of the tree with every ignored directory (at any depth)
removed, and a directory entry whose bare name matches an ignore pattern is
skipped entirely wherever it occurs, so nothing under it ever reaches
`files` or `directories`. -/
theorem analyze_project_prunes_ignored (pats : List String) (path : String)
    (cs : List FSEntry) :
    analyze_project pats path cs = analyze_project pats path (pruneEntries pats cs) ∧
    ∀ (r n : String) (children rest : List FSEntry) (info : ProjectInfo),
      _is_ignored_dir pats n = true →
      visitChildren pats r (.dir n children :: rest) info = visitChildren pats r rest info := by
  constructor
  · rw [analyze_project, analyze_project, fileNames_prune, visitChildren_prune]
  · intro r n children rest info hig
    rw [visitChildren, if_pos hig]

/-- Witness for C3 at a concrete ignored directory. -/
theorem analyze_project_prunes_ignored_witness :
    _is_ignored_dir [".git"] ".git" = true ∧
    visitChildren [".git"] "." [.dir ".git" [.file "secret"]] ⟨"/p", [], 0, [], 0, []⟩
      = visitChildren [".git"] "." [] ⟨"/p", [], 0, [], 0, []⟩ :=
  ⟨by decide,
    (analyze_project_prunes_ignored [".git"] "/p" []).2 "." ".git" [.file "secret"] []
      ⟨"/p", [], 0, [], 0, []⟩ (by decide)⟩

/-- C4 is false on the code: when the first `read_file` call fails (file
missing/unreadable), the degraded `""` is returned without being cached, so
a second call after the file appears on disk returns the new text, not `""`. -/
theorem read_file_idempotent_counterexample :
    ¬ ((read_file (fun _ => some "x") (read_file (fun _ => none) ⟨[], [], []⟩ "f").2 "f").1
        = (read_file (fun _ => none) (⟨[], [], []⟩ : Analyzer) "f").1) := by
  decide

/-- C4 (amended): `read_file` is idempotent per path provided the first call
actually obtained text (the path was already cached, or was readable at the
first call); the second call then returns identical text even if the file
changes or disappears on disk in between. -/
theorem read_file_idempotent_if_first_read_succeeds
    (fs1 fs2 : String → Option String) (a : Analyzer) (p : String)
    (h : cacheGet a.file_cache p ≠ none ∨ fs1 p ≠ none) :
    (read_file fs2 (read_file fs1 a p).2 p).1 = (read_file fs1 a p).1 := by
  rcases hc : cacheGet a.file_cache p with _ | c
  · rcases hf : fs1 p with _ | t
    · cases h with
      | inl h => exact absurd hc h
      | inr h => exact absurd hf h
    · simp only [read_file, hc, hf]
      rw [cacheGet_append_self _ _ _ hc]
  · simp [read_file, hc]

/-- Witness for C4 (amended): a successful first read is returned unchanged
by the second call even after the file disappears. -/
theorem read_file_idempotent_witness :
    (read_file (fun _ => none) (read_file (fun _ => some "t") ⟨[], [], []⟩ "f").2 "f").1
      = (read_file (fun _ => some "t") (⟨[], [], []⟩ : Analyzer) "f").1 :=
  read_file_idempotent_if_first_read_succeeds (fun _ => some "t") (fun _ => none)
    ⟨[], [], []⟩ "f" (Or.inr (by decide))

/-- C7: `analyze_file` fails with FileNotFoundError exactly when the path
does not exist, even when `content` is supplied; on an existing path it
always returns a result. -/
theorem analyze_file_notfound_iff (fs : String → Option String) (a : Analyzer)
    (p : String) (c : Option String) :
    (fs p = none → analyze_file fs a p c = .error (.FileNotFoundError p)) ∧
    ((fs p).isSome → (analyze_file fs a p c).isOk = true) := by
  constructor
  · intro h
    simp [analyze_file, h]
  · intro h
    rcases hfp : fs p with _ | t
    · rw [hfp] at h; simp at h
    · have hn : (fs p).isNone = false := by rw [hfp]; rfl
      simp only [analyze_file, hn, Bool.false_eq_true, if_false]
      rfl

/-- Witness for C7: a missing path errors even with content supplied; an
existing path succeeds. -/
theorem analyze_file_notfound_witness :
    analyze_file (fun _ => none) (⟨[], [], []⟩ : Analyzer) "missing.py" (some "x = 1\n")
        = .error (.FileNotFoundError "missing.py") ∧
      (analyze_file (fun _ => some "s") (⟨[], [], []⟩ : Analyzer) "present.xyz" none).isOk
        = true :=
  ⟨(analyze_file_notfound_iff (fun _ => none) ⟨[], [], []⟩ "missing.py" (some "x = 1\n")).1 rfl,
    (analyze_file_notfound_iff (fun _ => some "s") ⟨[], [], []⟩ "present.xyz" none).2 rfl⟩

/-- C10: when `read_file` fails to open the file (not cached and unreadable),
the degraded `""` result is returned with the analyzer state unchanged — the
failure is not stored in the cache — so a later call re-attempts the read
exactly as if the first call had never happened. -/
theorem read_file_failure_not_cached (fs : String → Option String) (a : Analyzer)
    (p : String) (hc : cacheGet a.file_cache p = none) (hf : fs p = none) :
    read_file fs a p = ("", a) ∧
    ∀ fs2, read_file fs2 (read_file fs a p).2 p = read_file fs2 a p := by
  have h1 : read_file fs a p = ("", a) := by simp [read_file, hc, hf]
  exact ⟨h1, fun fs2 => by rw [h1]⟩

/-- Witness for C10 at a concrete missing path. -/
theorem read_file_failure_not_cached_witness :
    read_file (fun _ => none) (⟨[], [], []⟩ : Analyzer) "gone"
      = ("", (⟨[], [], []⟩ : Analyzer)) :=
  (read_file_failure_not_cached (fun _ => none) ⟨[], [], []⟩ "gone" rfl rfl).1

/-- C9: in every ProjectInfo returned by `analyze_project`, `file_count`
equals the length of `files` and `directory_count` equals the length of
`directories`. -/
theorem analyze_project_counts (pats : List String) (path : String) (cs : List FSEntry) :
    (analyze_project pats path cs).file_count
        = (analyze_project pats path cs).files.length ∧
      (analyze_project pats path cs).directory_count
        = (analyze_project pats path cs).directories.length := by
  rw [analyze_project]
  apply visitChildren_counts
  constructor
  · rw [addFiles_file_count, addFiles_files_length]
    simp
  · rw [addFiles_directory_count, addFiles_directories]
    rfl

/-- C5: the Python extractor expands a `from`-import into `<module>.<name>`
per comma-split name (whitespace trimmed) and records plain `import` names
unmodified; on `"import os\nfrom sys import path, argv\n"` it yields exactly
`["os", "sys.path", "sys.argv"]`. -/
theorem analyze_python_imports_example :
    (_analyze_python "import os\nfrom sys import path, argv\n").imports
      = ["os", "sys.path", "sys.argv"] := by decide

/-- C6: the C/C++ extractor records the second word of a
`<word> <word> ( ... ) {` match unless the first word is a control-flow
keyword; on `"if (x) \x7b\nint add(int a, int b) \x7b\n"` it yields exactly
`["add"]`. -/
theorem analyze_c_cpp_functions_example :
    (_analyze_c_cpp "if (x) \x7b\nint add(int a, int b) \x7b\n").functions = ["add"] := by decide

/-- C2 is false on the code: the JavaScript import pattern
`(import|require)\s+...` requires at least one whitespace character after
the keyword, so the plain call `require('mod')` matches nothing and its
quoted path is not captured. -/
theorem analyze_javascript_require_counterexample :
    ¬ ("mod" ∈ (_analyze_javascript "require('mod')").imports) := by decide

/-- C8: the FileInfo produced by `analyze_file` carries language-specific
fields exactly when the extension is one of the five recognized ones; for
any other extension only the four base fields are populated. -/
theorem analyze_file_base_fields_iff (fs : String → Option String) (a : Analyzer)
    (p : String) (c : Option String) (fi : FileInfo) (a2 : Analyzer)
    (h : analyze_file fs a p c = .ok (fi, a2)) :
    (fi.imports = none ∧ fi.functions = none ∧ fi.classes = none ∧
        fi.includes = none ∧ fi.structs = none)
      ↔ (fi.type ≠ "py" ∧ fi.type ≠ "js" ∧ fi.type ≠ "c" ∧ fi.type ≠ "cpp" ∧ fi.type ≠ "h") := by
  rcases hfp : fs p with _ | t
  · simp [analyze_file, hfp] at h
  · simp only [analyze_file, hfp, Option.isNone_some, Bool.false_eq_true, if_false,
      Except.ok.injEq, Prod.mk.injEq] at h
    obtain ⟨h1, _⟩ := h
    subst h1
    split
    · split
      · next hpy => simp [hpy]
      · split
        · next hc =>
          rcases hc with hc | hc | hc <;> simp [hc]
        · next hor hnpy hnc =>
          have hjs : String.mk (List.dropWhile (fun c => c == '.') (pyLower (splitext p).2).data)
              = "js" := by
            tauto
          simp [hjs]
    · next hnor =>
      push_neg at hnor
      obtain ⟨n1, n2, n3, n4, n5⟩ := hnor
      simp [n1, n2, n3, n4, n5]

/-- Witness for C8 at a concrete unrecognized extension. -/
theorem analyze_file_base_fields_witness :
    (((⟨"f.xyz", "xyz", 1, 5, none, none, none, none, none⟩ : FileInfo).imports = none ∧
        (⟨"f.xyz", "xyz", 1, 5, none, none, none, none, none⟩ : FileInfo).functions = none ∧
        (⟨"f.xyz", "xyz", 1, 5, none, none, none, none, none⟩ : FileInfo).classes = none ∧
        (⟨"f.xyz", "xyz", 1, 5, none, none, none, none, none⟩ : FileInfo).includes = none ∧
        (⟨"f.xyz", "xyz", 1, 5, none, none, none, none, none⟩ : FileInfo).structs = none)
      ↔ ((⟨"f.xyz", "xyz", 1, 5, none, none, none, none, none⟩ : FileInfo).type ≠ "py" ∧
        (⟨"f.xyz", "xyz", 1, 5, none, none, none, none, none⟩ : FileInfo).type ≠ "js" ∧
        (⟨"f.xyz", "xyz", 1, 5, none, none, none, none, none⟩ : FileInfo).type ≠ "c" ∧
        (⟨"f.xyz", "xyz", 1, 5, none, none, none, none, none⟩ : FileInfo).type ≠ "cpp" ∧
        (⟨"f.xyz", "xyz", 1, 5, none, none, none, none, none⟩ : FileInfo).type ≠ "h")) :=
  analyze_file_base_fields_iff (fun _ => some "hello") ⟨[], [], []⟩ "f.xyz" none
    ⟨"f.xyz", "xyz", 1, 5, none, none, none, none, none⟩ ⟨[], [], [("f.xyz", "hello")]⟩
    (by rfl)

theorem runLenFrom_cons_true (p : Char → Bool) (c : Char) (cs : List Char)
    (h : p c = true) : runLenFrom p (c :: cs) = runLenFrom p cs + 1 := by
  simp [runLenFrom, h]

theorem runLenFrom_cons_false (p : Char → Bool) (c : Char) (cs : List Char)
    (h : p c = false) : runLenFrom p (c :: cs) = 0 := by
  simp [runLenFrom, h]

theorem runLenFrom_append_all (p : Char → Bool) (xs ys : List Char)
    (h : ∀ c ∈ xs, p c = true) :
    runLenFrom p (xs ++ ys) = xs.length + runLenFrom p ys := by
  induction xs with
  | nil => simp
  | cons c rest ih =>
    rw [List.cons_append, runLenFrom_cons_true p c _ (h c (by simp)),
      ih (fun d hd => h d (by simp [hd]))]
    simp [List.length_cons]
    omega

theorem range_succ_reverse (k : Nat) :
    (List.range (k + 1)).reverse = k :: (List.range k).reverse := by
  rw [List.range_succ]
  simp

theorem jsTail_head (p0 : Option Char) (g : Caps) (m : String) (k : Nat)
    (hk : m.data.length = k + 1)
    (hq : ∀ c ∈ m.data, isQuote c = false) :
    ∃ junk, reMatch
      (.cat (.plusG isPySpace)
        (.cat (.plusL isDotAny)
          (.cat (.ch isQuote)
            (.cat (.group 2 (.plusG (fun c => !isQuote c)))
              (.ch isQuote)))))
      p0 (' ' :: '(' :: '\'' :: (m.data ++ ['\'', ')'])) g
    = ⟨some '\'', [')'], setCap g 2 m⟩ :: junk := by
  have h1 : runLenFrom isPySpace (' ' :: '(' :: '\'' :: (m.data ++ ['\'', ')'])) = 1 := by
    rw [runLenFrom_cons_true _ _ _ (by decide), runLenFrom_cons_false _ _ _ (by decide)]
  have h2 : runLenFrom (fun c => !isQuote c) (m.data ++ ['\'', ')']) = k + 1 := by
    rw [runLenFrom_append_all _ _ _ (fun c hc => by simp [hq c hc]),
      runLenFrom_cons_false _ _ _ (by decide), hk]
  have hdrop : (m.data ++ ['\'', ')']).drop (k + 1) = ['\'', ')'] := by
    rw [← hk]
    exact List.drop_left _ _
  have hlen : (m.data ++ ['\'', ')']).length = k + 3 := by
    simp [hk]
  have hcap : String.mk ((m.data ++ ['\'', ')']).take ((m.data ++ ['\'', ')']).length - 2)) = m := by
    rw [hlen]
    have h32 : k + 3 - 2 = k + 1 := by omega
    rw [h32, ← hk, List.take_left]
  have hr1 : List.range 1 = [0] := rfl
  simp only [reMatch, h1, h2, hdrop, npAfter, hr1, List.reverse_cons,
    List.reverse_nil, List.nil_append, List.map_cons, List.map_nil, List.flatMap_cons,
    List.flatMap_nil, List.append_nil, List.getElem?_cons_zero, List.drop_succ_cons,
    List.drop_zero]
  rw [runLenFrom_cons_true isDotAny '(' _ (by decide)]
  simp only [List.range_succ_eq_map, List.map_cons, List.flatMap_cons, List.drop_zero,
    List.getElem?_cons_zero, List.cons_append, Nat.add_one_ne_zero, if_false]
  have hq1 : isQuote '\'' = true := by decide
  simp only [hq1, if_true, List.flatMap_cons, List.flatMap_nil, List.append_nil, h2,
    range_succ_reverse, List.map_cons, Nat.add_sub_cancel, hdrop, List.length_cons,
    List.length_nil, hcap, List.cons_append]
  exact ⟨_, rfl⟩

theorem reMatch_cat (a b : RE) (p0 : Option Char) (s : List Char) (g : Caps) :
    reMatch (.cat a b) p0 s g
      = (reMatch a p0 s g).flatMap (fun mr => reMatch b mr.prev mr.rest mr.caps) := rfl

theorem jsRequire_first (m : String) (k : Nat) (hk : m.data.length = k + 1)
    (hq : ∀ c ∈ m.data, isQuote c = false) :
    ∃ junk, reMatch import_pattern_js none
        ('r' :: 'e' :: 'q' :: 'u' :: 'i' :: 'r' :: 'e' :: ' ' :: '(' :: '\'' ::(m.data ++ ['\'', ')'])) []
      = ⟨some '\'', [')'], [(2, m), (1, "require")]⟩ :: junk := by
  obtain ⟨junk, hjt⟩ := jsTail_head (some 'e') [(1, "require")] m k hk hq
  have himp : "import".data = ['i','m','p','o','r','t'] := rfl
  have hreq : "require".data = ['r','e','q','u','i','r','e'] := rfl
  have hg1 : reMatch (.group 1 (.alt (litRE "import") (litRE "require"))) none
      ('r' :: 'e' :: 'q' :: 'u' :: 'i' :: 'r' :: 'e' :: ' ' :: '(' :: '\'' ::(m.data ++ ['\'', ')'])) []
      = [⟨some 'e', ' ' :: '(' :: '\'' ::(m.data ++ ['\'', ')']), [(1, "require")]⟩] := by
    simp only [litRE, himp, hreq, List.foldr_cons, List.foldr_nil]
    simp only [reMatch]
    simp [setCap, hk, List.length_cons, List.length_append, Nat.add_sub_add_left,
      List.take_succ_cons, List.take_zero]
  unfold import_pattern_js
  rw [reMatch_cat, hg1]
  simp only [List.flatMap_cons, List.flatMap_nil, List.append_nil]
  rw [hjt]
  exact ⟨junk, by simp [setCap]⟩

theorem jsImport_first (m : String) (k : Nat) (hk : m.data.length = k + 1)
    (hq : ∀ c ∈ m.data, isQuote c = false) :
    ∃ junk, reMatch import_pattern_js none
        ('i' :: 'm' :: 'p' :: 'o' :: 'r' :: 't' :: ' ' :: '(' :: '\'' ::(m.data ++ ['\'', ')'])) []
      = ⟨some '\'', [')'], [(2, m), (1, "import")]⟩ :: junk := by
  obtain ⟨junk, hjt⟩ := jsTail_head (some 't') [(1, "import")] m k hk hq
  have himp : "import".data = ['i','m','p','o','r','t'] := rfl
  have hreq : "require".data = ['r','e','q','u','i','r','e'] := rfl
  have hg1 : reMatch (.group 1 (.alt (litRE "import") (litRE "require"))) none
      ('i' :: 'm' :: 'p' :: 'o' :: 'r' :: 't' :: ' ' :: '(' :: '\'' ::(m.data ++ ['\'', ')'])) []
      = [⟨some 't', ' ' :: '(' :: '\'' ::(m.data ++ ['\'', ')']), [(1, "import")]⟩] := by
    simp only [litRE, himp, hreq, List.foldr_cons, List.foldr_nil]
    simp only [reMatch]
    simp [setCap, hk, List.length_cons, List.length_append, Nat.add_sub_add_left,
      List.take_succ_cons, List.take_zero]
  unfold import_pattern_js
  rw [reMatch_cat, hg1]
  simp only [List.flatMap_cons, List.flatMap_nil, List.append_nil]
  rw [hjt]
  exact ⟨junk, by simp [setCap]⟩

theorem scan_succ (r : RE) (fuel : Nat) (p0 : Option Char) (s : List Char) :
    scan r (fuel+1) p0 s
      = match (reMatch r p0 s []).head? with
        | some mr =>
          if mr.rest.length < s.length then mr.caps :: scan r fuel mr.prev mr.rest
          else mr.caps :: (match s with | [] => [] | c :: cs => scan r fuel (some c) cs)
        | none => match s with | [] => [] | c :: cs => scan r fuel (some c) cs := rfl

theorem jsRequire_imports (m : String) (k : Nat) (hk : m.data.length = k + 1)
    (hq : ∀ c ∈ m.data, isQuote c = false) :
    (_analyze_javascript ("require ('" ++ m ++ "')")).imports = [m] := by
  have hpre : "require ('".data = ['r','e','q','u','i','r','e',' ','(','\''] := rfl
  have hsuf : "')".data = ['\'', ')'] := rfl
  have hdata : ("require ('" ++ m ++ "')").data
      = 'r' :: 'e' :: 'q' :: 'u' :: 'i' :: 'r' :: 'e' :: ' ' :: '(' :: '\'' ::(m.data ++ ['\'', ')']) := by
    rw [String.data_append, String.data_append, hpre, hsuf]
    simp [List.append_assoc]
  obtain ⟨junk, hfirst⟩ := jsRequire_first m k hk hq
  have hlen : ("require ('" ++ m ++ "')").data.length = k + 13 := by
    rw [hdata]
    simp [List.length_cons, List.length_append, hk]
  have hstep2 : reMatch import_pattern_js (some '\'') [')'] [] = [] := rfl
  have hstep3 : reMatch import_pattern_js (some ')') ([] : List Char) [] = [] := rfl
  have hlt : ([')'] : List Char).length
      < ('r' :: 'e' :: 'q' :: 'u' :: 'i' :: 'r' :: 'e' :: ' ' :: '(' :: '\'' ::(m.data ++ ['\'', ')'])).length := by
    simp [List.length_cons, List.length_append, hk]
  have hscan : finditer import_pattern_js ("require ('" ++ m ++ "')")
      = [[(2, m), (1, "require")]] := by
    rw [finditer, hlen, hdata, scan_succ, hfirst]
    simp only [List.head?_cons]
    rw [if_pos hlt]
    rw [show k + 13 = (k + 12) + 1 from rfl, scan_succ, hstep2]
    simp only [List.head?_nil]
    rw [show k + 12 = (k + 11) + 1 from rfl, scan_succ, hstep3]
    simp only [List.head?_nil]
  simp only [_analyze_javascript, hscan, List.filterMap_cons, List.filterMap_nil]
  rfl

theorem jsImport_imports (m : String) (k : Nat) (hk : m.data.length = k + 1)
    (hq : ∀ c ∈ m.data, isQuote c = false) :
    (_analyze_javascript ("import ('" ++ m ++ "')")).imports = [m] := by
  have hpre : "import ('".data = ['i','m','p','o','r','t',' ','(','\''] := rfl
  have hsuf : "')".data = ['\'', ')'] := rfl
  have hdata : ("import ('" ++ m ++ "')").data
      = 'i' :: 'm' :: 'p' :: 'o' :: 'r' :: 't' :: ' ' :: '(' :: '\'' ::(m.data ++ ['\'', ')']) := by
    rw [String.data_append, String.data_append, hpre, hsuf]
    simp [List.append_assoc]
  obtain ⟨junk, hfirst⟩ := jsImport_first m k hk hq
  have hlen : ("import ('" ++ m ++ "')").data.length = k + 12 := by
    rw [hdata]
    simp [List.length_cons, List.length_append, hk]
  have hstep2 : reMatch import_pattern_js (some '\'') [')'] [] = [] := rfl
  have hstep3 : reMatch import_pattern_js (some ')') ([] : List Char) [] = [] := rfl
  have hlt : ([')'] : List Char).length
      < ('i' :: 'm' :: 'p' :: 'o' :: 'r' :: 't' :: ' ' :: '(' :: '\'' ::(m.data ++ ['\'', ')'])).length := by
    simp [List.length_cons, List.length_append, hk]
  have hscan : finditer import_pattern_js ("import ('" ++ m ++ "')")
      = [[(2, m), (1, "import")]] := by
    rw [finditer, hlen, hdata, scan_succ, hfirst]
    simp only [List.head?_cons]
    rw [if_pos hlt]
    rw [show k + 12 = (k + 11) + 1 from rfl, scan_succ, hstep2]
    simp only [List.head?_nil]
    rw [show k + 11 = (k + 10) + 1 from rfl, scan_succ, hstep3]
    simp only [List.head?_nil]
  simp only [_analyze_javascript, hscan, List.filterMap_cons, List.filterMap_nil]
  rfl

/-- C2 (amended): the quoted module path is captured only when the keyword is
followed by whitespace; with whitespace between keyword and the parenthesized
quoted path, the path is captured for both keywords, for every non-empty path
containing no quote character (a `require('...')` call with no whitespace
captures nothing, see the counterexample). -/
theorem analyze_javascript_quoted_path_amended (m : String) (hm : m ≠ "")
    (hq : ∀ c ∈ m.data, isQuote c = false) :
    (_analyze_javascript ("require ('" ++ m ++ "')")).imports = [m] ∧
    (_analyze_javascript ("import ('" ++ m ++ "')")).imports = [m] := by
  obtain ⟨k, hk⟩ : ∃ k, m.data.length = k + 1 := by
    rcases hd : m.data with _ | ⟨c, cs⟩
    · refine absurd ?_ hm
      cases m with
      | mk l =>
        simp only [String.data] at hd
        subst hd
        rfl
    · exact ⟨cs.length, by simp⟩
  exact ⟨jsRequire_imports m k hk hq, jsImport_imports m k hk hq⟩

/-- Witness for C2 (amended) at the concrete path `mod`. -/
theorem analyze_javascript_quoted_path_witness :
    (_analyze_javascript "require ('mod')").imports = ["mod"] ∧
    (_analyze_javascript "import ('mod')").imports = ["mod"] := by
  have h := analyze_javascript_quoted_path_amended "mod" (by decide)
    (by intro c hc; fin_cases hc <;> decide)
  simpa using h

end ProjectAnalyzer
